import Mathlib

/-!
Verification of the job lifecycle, checkpoint/resume and progress-reporting
engine of the vibe-proteins repository, shallowly embedded from the Python
sources under src/modal.  Time is modelled by an explicit natural-number
clock passed to each operation (the source calls time.time() at each point;
all calls inside one operation observe the same instant).
-/

namespace VibeProteins

/-! ## Job Ledger (src/modal/core/job_status.py)

The ledger backing store (a Modal Dict keyed by job_id) is modelled as a
function from keys to optional records.  Records are Python dicts; the
opaque payloads carried in the output and usage fields are modelled by
type parameters O and U. -/

/-- ProgressEvent appended by update_job_status: stage, message, timestamp. -/
structure ProgressEvent where
  stage : String
  message : String
  timestamp : Nat
deriving DecidableEq, Repr

/-- JobRecord as stored in the Modal Dict by job_status.py.  The fields
updated_at / output / error / usage are absent on a freshly synthesized
record, hence Option-valued; updated_at is set by every write path. -/
structure JobRecord (O U : Type) where
  job_id : String
  status : String
  progress : List ProgressEvent
  created_at : Nat
  updated_at : Option Nat
  output : Option O
  error : Option String
  usage : Option U
deriving DecidableEq, Repr

/-- The Modal Dict job_status_dict, as a key-value map. -/
def Store (O U : Type) : Type := String → Option (JobRecord O U)

/-- Empty backing store: no job has ever been written. -/
def emptyStore (O U : Type) : Store O U := fun _ => none

/-- get_job_status: fetch by job_id, absent keys give None. -/
def get_job_status (store : Store O U) (job_id : String) :
    Option (JobRecord O U) :=
  store job_id

/-- The modify step of update_job_status, applied to the record fetched for
job_id (or none).  Synthesizes a pending record when absent; overwrites
status and updated_at; appends a progress event when both stage and message
are truthy (the source guards with `if stage and message`, so None and the
empty string are falsy); overwrites output / error / usage when they are
not None. -/
def updatedRecord (existing? : Option (JobRecord O U)) (now : Nat)
    (job_id status : String) (stage message : Option String)
    (output : Option O) (error : Option String) (usage : Option U) :
    JobRecord O U :=
  let existing : JobRecord O U :=
    existing?.getD
      { job_id := job_id, status := "pending", progress := []
        created_at := now, updated_at := none
        output := none, error := none, usage := none }
  let r1 := { existing with status := status, updated_at := some now }
  let r2 :=
    match stage, message with
    | some s, some m =>
        if s ≠ "" ∧ m ≠ "" then
          { r1 with progress := r1.progress ++ [⟨s, m, now⟩] }
        else r1
    | _, _ => r1
  let r3 := match output with
    | some o => { r2 with output := some o }
    | none => r2
  let r4 := match error with
    | some e => { r3 with error := some e }
    | none => r3
  match usage with
    | some u => { r4 with usage := some u }
    | none => r4

/-- update_job_status: read-modify-write on the Modal Dict.  Fetches the
existing record through get_job_status, modifies it (updatedRecord), and
writes it back under job_id. -/
def update_job_status (store : Store O U) (now : Nat) (job_id status : String)
    (stage message : Option String) (output : Option O)
    (error : Option String) (usage : Option U) : Store O U :=
  let r := updatedRecord (get_job_status store job_id) now job_id status
    stage message output error usage
  fun k => if k = job_id then some r else store k

/-- send_progress: prints, then (for a truthy job_id) records a running
progress update through update_job_status. -/
def send_progress (store : Store O U) (now : Nat) (job_id : Option String)
    (stage message : String) : Store O U :=
  match job_id with
  | none => store
  | some jid =>
      if jid = "" then store
      else update_job_status store now jid "running" (some stage)
        (some message) none none none

/-- The progress delta appended by one update_job_status call: a singleton
event when both stage and message are truthy, otherwise nothing. -/
def progressDelta (stage message : Option String) (now : Nat) :
    List ProgressEvent :=
  match stage, message with
  | some s, some m => if s ≠ "" ∧ m ≠ "" then [⟨s, m, now⟩] else []
  | _, _ => []

/-- Helper to read a projection of the record stored at a key. -/
def recField (store : Store O U) (job_id : String) (f : JobRecord O U → A) :
    Option A :=
  (store job_id).map f

/-- ResourceUsage dict written by send_usage_update: gpu_type,
execution_seconds, last_updated.  The source carries execution_seconds as a
float; it is only stored, never computed with, so it is modelled as Nat
ticks. -/
structure ResourceUsage where
  gpu_type : String
  execution_seconds : Nat
  last_updated : Nat
deriving DecidableEq, Repr

/-- send_usage_update: periodic usage update for long-running jobs.  For a
falsy job_id it returns immediately; otherwise it fetches the existing
record or synthesizes a running one, overwrites the usage field with the
cumulative figures and updated_at, and writes the record back. -/
def send_usage_update (store : Store O ResourceUsage) (now : Nat)
    (job_id : Option String) (gpu_type : String)
    (execution_seconds : Nat) : Store O ResourceUsage :=
  match job_id with
  | none => store
  | some jid =>
      if jid = "" then store
      else
        let existing : JobRecord O ResourceUsage :=
          (get_job_status store jid).getD
            { job_id := jid, status := "running", progress := []
              created_at := now, updated_at := none
              output := none, error := none, usage := none }
        let r := { existing with
          usage := some ⟨gpu_type, execution_seconds, now⟩
          updated_at := some now }
        fun k => if k = jid then some r else store k

/-! ## Checkpoint Manager (src/modal/utils/preemption.py)

PreemptionManager keeps one checkpoint file (work_dir/checkpoint.json) and
a preempted flag.  The checkpoint file is modelled by its optional text
contents; save_state serializes the payload with an encoder (json.dumps in
the source), load_state parses it back (json.loads), clear_state unlinks
the file.  The adapter commit called by save_state persists a durable
volume, an external effect with no bearing on the stored contents. -/

/-- PreemptionManager local state: checkpoint file contents (absent when
the file does not exist) and the preempted flag. -/
structure PreemptionManager where
  state_file : Option String
  preempted : Bool
deriving DecidableEq, Repr

/-- load_state: absent file gives None, otherwise parse the contents. -/
def load_state (dec : String → V) (pm : PreemptionManager) : Option V :=
  pm.state_file.map dec

/-- save_state: serialize the payload to the checkpoint path, then commit
the durable volume. -/
def save_state (enc : V → String) (pm : PreemptionManager) (state : V) :
    PreemptionManager :=
  { pm with state_file := some (enc state) }

/-- clear_state: unlink the checkpoint file when it exists. -/
def clear_state (pm : PreemptionManager) : PreemptionManager :=
  { pm with state_file := none }

/-! ## Phased Resumable Optimizer (src/modal/pipelines/mosaic.py, run_phase)

run_phase drives a while-loop over bounded chunks of optimization steps.
The numeric work (simplex_APGM from the external mosaic library, and the
loss evaluation) is out of scope per the spec, so it is abstracted: apgm
takes the current steps_completed (which keys the chunk RNG via fold_in),
the chunk length, the current candidate, and returns the new current and
candidate_best; lossf scores a candidate.  Each iteration clips the chunk
to the remaining steps, runs the chunk, keeps the best-scoring candidate
seen, saves a checkpoint recording steps_completed, and checks for
preemption (modelled here for the non-preempted execution, where
raise_if_preempted is a no-op).  The loop is driven by fuel equal to the
remaining steps, which bounds the iteration count whenever chunk_size is
positive since every iteration advances by at least one step; the source
loop does not terminate when chunk_size is zero, and no property below
concerns that case. -/

/-- Loop state of run_phase: step counter, current and best candidates
with the best loss seen, plus the observable log of checkpoint writes
(the steps_completed value passed to save_checkpoint) and the total count
of optimization steps executed. -/
structure PhaseState (α : Type) where
  steps_completed : Nat
  current : α
  best : α
  best_loss : Option Int
  checkpoints : List Nat
  executed : Nat

/-- One iteration of the run_phase while-loop: clip the chunk to the
remaining steps, run it through the external optimizer, retain the
best-scoring candidate, advance the counter, and record the checkpoint
write. -/
def phase_chunk (apgm : Nat → Nat → α → α × α) (lossf : α → Int)
    (chunk_size total_steps : Nat) (st : PhaseState α) : PhaseState α :=
  let steps_this := min chunk_size (total_steps - st.steps_completed)
  let stepped := apgm st.steps_completed steps_this st.current
  let loss_value := lossf stepped.2
  let better :=
    match st.best_loss with
    | none => (stepped.2, loss_value)
    | some bl =>
        if loss_value < bl then (stepped.2, loss_value)
        else (st.best, bl)
  { steps_completed := st.steps_completed + steps_this
    current := stepped.1
    best := better.1
    best_loss := some better.2
    checkpoints := st.checkpoints ++ [st.steps_completed + steps_this]
    executed := st.executed + steps_this }

/-- The run_phase while-loop, fuel-driven. -/
def run_phase_loop (apgm : Nat → Nat → α → α × α) (lossf : α → Int)
    (chunk_size total_steps : Nat) (fuel : Nat) (st : PhaseState α) :
    PhaseState α :=
  match fuel with
  | 0 => st
  | fuel + 1 =>
      if st.steps_completed < total_steps then
        run_phase_loop apgm lossf chunk_size total_steps fuel
          (phase_chunk apgm lossf chunk_size total_steps st)
      else st

/-- run_phase: start from start_steps already completed, with the initial
candidate for this phase and the best candidate carried over; best_loss
starts at None and the checkpoint log of this call starts empty. -/
def run_phase (apgm : Nat → Nat → α → α × α) (lossf : α → Int)
    (chunk_size start_steps total_steps : Nat)
    (initial_sequence best_sequence : α) : PhaseState α :=
  run_phase_loop apgm lossf chunk_size total_steps
    (total_steps - start_steps)
    { steps_completed := start_steps, current := initial_sequence
      best := best_sequence, best_loss := none
      checkpoints := [], executed := 0 }

/-- The start_steps wiring of run_mosaic_boltz2 for the coarse phase: a
checkpoint loaded with phase coarse resumes from its steps_completed,
any other state starts the phase from zero. -/
def coarse_start_steps (checkpoint_phase : Option String)
    (steps_completed : Nat) : Nat :=
  if checkpoint_phase = some "coarse" then steps_completed else 0

/-- Length of the progress list stored for a job, zero when absent. -/
def progressLen (store : Store O U) (job_id : String) : Nat :=
  ((store job_id).map (fun r => r.progress.length)).getD 0

/-- Arguments of one update_job_status call (used to talk about sequences
of updates applied to the same job). -/
structure UpdateCmd (O U : Type) where
  now : Nat
  status : String
  stage : Option String
  message : Option String
  output : Option O
  error : Option String
  usage : Option U

/-- Apply a sequence of update_job_status calls to the same job_id. -/
def apply_updates (job_id : String) (store : Store O U)
    (cmds : List (UpdateCmd O U)) : Store O U :=
  cmds.foldl
    (fun s c => update_job_status s c.now job_id c.status c.stage c.message
      c.output c.error c.usage)
    store

/-- Concrete ledger holding one completed job, used by witnesses. -/
def completedStore : Store Nat ResourceUsage := fun k =>
  if k = "j" then
    some { job_id := "j", status := "completed", progress := []
           created_at := 0, updated_at := some 1
           output := some 42, error := none, usage := none }
  else none

/-! ## External Pipeline Runner (src/modal/pipelines/boltzgen.py)

run_boltzgen_with_progress streams subprocess output line by line and
scans each line with check_line_for_progress against the ordered
stage_patterns list.  The regex engine is external, so a rule carries the
abstract predicate computed by re.search of its pattern.  Progress events
sent through send_progress are logged here as (stage, message) pairs;
reported_stages is the per-attempt seen set of stage:message keys. -/

/-- One entry of stage_patterns: the line predicate (re.search of the
pattern, case-insensitive) and the stage and message it reports. -/
structure ProgressRule where
  pattern : String → Bool
  stage : String
  message : String

/-- Scanner state threaded through check_line_for_progress: the seen set
reported_stages, last_progress_time, and the log of emitted progress
events as (stage, message) pairs. -/
structure ScanState where
  reported_stages : List String
  last_progress_time : Nat
  events : List (String × String)
deriving DecidableEq, Repr

/-- The dedup key used by check_line_for_progress: stage:message. -/
def stage_key (stage message : String) : String := stage ++ ":" ++ message

/-- The for-loop over stage_patterns with break on the first rule whose
pattern matches the line. -/
def findFirstMatch (rules : List ProgressRule) (line : String) :
    Option ProgressRule :=
  rules.find? (fun r => r.pattern line)

/-- check_line_for_progress: scan one log line.  The first matching rule
whose stage:message key is unseen emits a progress event, marks the key
seen, and resets last_progress_time; a matching rule whose key is already
seen emits nothing.  Afterwards, if more than 60 seconds have passed since
last_progress_time, one generic heartbeat event is emitted and the timer
resets. -/
def check_line_for_progress (rules : List ProgressRule) (now : Nat)
    (line : String) (st : ScanState) : ScanState :=
  let st1 :=
    match findFirstMatch rules line with
    | some r =>
        let key := stage_key r.stage r.message
        if key ∈ st.reported_stages then st
        else
          { st with
            reported_stages := key :: st.reported_stages
            events := st.events ++ [(r.stage, r.message)]
            last_progress_time := now }
    | none => st
  if 60 < now - st1.last_progress_time then
    { st1 with
      events := st1.events ++ [("processing", "Pipeline running...")]
      last_progress_time := now }
  else st1

/-- Feed a trace of timestamped output lines through the scanner, in
order.  An empty trace means the subprocess produced no output lines. -/
def process_lines (rules : List ProgressRule) (trace : List (Nat × String))
    (st : ScanState) : ScanState :=
  trace.foldl (fun s p => check_line_for_progress rules p.1 p.2 s) st

/-- tail_file (src/modal/utils/pdb.py): the last max_bytes bytes of a
file, empty when the file does not exist.  File contents are byte lists;
the utf-8 decode with replacement is external presentation. -/
def tail_file (contents : Option (List Nat)) (max_bytes : Nat) : List Nat :=
  match contents with
  | none => []
  | some data =>
      if data.length > max_bytes then data.drop (data.length - max_bytes)
      else data

/-- Outcome of run_boltzgen_with_progress once the subprocess has exited:
the result (the RuntimeError message carries the log tail) and whether
stop_progress_monitor was set.  The source sets it in a finally block, on
the success, failure and exception paths alike. -/
structure RunOutcome where
  result : Except (List Nat) Unit
  poller_stopped : Bool

/-- Exit handling of run_boltzgen_with_progress: on nonzero exit raise a
failure carrying tail_file of the log with max_bytes 8000; on zero exit
return normally; stop the background poller on every path. -/
def run_boltzgen_exit (return_code : Int)
    (log_contents : Option (List Nat)) : RunOutcome :=
  if return_code ≠ 0 then
    { result := Except.error (tail_file log_contents 8000)
      poller_stopped := true }
  else
    { result := Except.ok (), poller_stopped := true }

end VibeProteins

namespace VibeProteins

theorem update_job_status_apply_self (store : Store O U) (now : Nat)
    (jid status : String) (stage message : Option String) (output : Option O)
    (error : Option String) (usage : Option U) :
    update_job_status store now jid status stage message output error usage
        jid
      = some (updatedRecord (store jid) now jid status stage message output
          error usage) := by
  simp [update_job_status, get_job_status]

theorem update_job_status_apply_other (store : Store O U) (now : Nat)
    (jid status : String) (stage message : Option String) (output : Option O)
    (error : Option String) (usage : Option U) (k : String) (hk : k ≠ jid) :
    update_job_status store now jid status stage message output error usage k
      = store k := by
  simp [update_job_status, hk]

theorem updatedRecord_fields (existing? : Option (JobRecord O U)) (now : Nat)
    (jid status : String) (stage message : Option String) (output : Option O)
    (error : Option String) (usage : Option U) :
    let r := updatedRecord existing? now jid status stage message output
      error usage
    r.job_id = existing?.elim jid (·.job_id)
    ∧ r.status = status
    ∧ r.updated_at = some now
    ∧ r.created_at = existing?.elim now (·.created_at)
    ∧ r.progress = (existing?.elim [] (·.progress))
        ++ progressDelta stage message now
    ∧ r.output = output.or (existing?.bind (·.output))
    ∧ r.error = error.or (existing?.bind (·.error))
    ∧ r.usage = usage.or (existing?.bind (·.usage)) := by
  cases existing? <;>
    rcases stage with _ | s <;> rcases message with _ | m <;>
    rcases output with _ | o <;> rcases error with _ | e <;>
    rcases usage with _ | u <;>
      simp [updatedRecord, progressDelta, Option.or] <;>
      split <;> simp

theorem phase_chunk_steps_completed (apgm : Nat → Nat → α → α × α)
    (lossf : α → Int) (chunk_size total_steps : Nat) (st : PhaseState α) :
    (phase_chunk apgm lossf chunk_size total_steps st).steps_completed
      = st.steps_completed
        + min chunk_size (total_steps - st.steps_completed) := by
  simp [phase_chunk]

theorem phase_chunk_executed (apgm : Nat → Nat → α → α × α)
    (lossf : α → Int) (chunk_size total_steps : Nat) (st : PhaseState α) :
    (phase_chunk apgm lossf chunk_size total_steps st).executed
      = st.executed + min chunk_size (total_steps - st.steps_completed) := by
  simp [phase_chunk]

theorem phase_chunk_checkpoints (apgm : Nat → Nat → α → α × α)
    (lossf : α → Int) (chunk_size total_steps : Nat) (st : PhaseState α) :
    (phase_chunk apgm lossf chunk_size total_steps st).checkpoints
      = st.checkpoints
        ++ [st.steps_completed
            + min chunk_size (total_steps - st.steps_completed)] := by
  simp [phase_chunk]

theorem run_phase_loop_exec (apgm : Nat → Nat → α → α × α) (lossf : α → Int)
    (chunk_size total_steps : Nat) (hc : 0 < chunk_size) :
    ∀ (fuel : Nat) (st : PhaseState α),
      st.steps_completed ≤ total_steps →
      total_steps - st.steps_completed ≤ fuel →
      (run_phase_loop apgm lossf chunk_size total_steps fuel st).executed
          = st.executed + (total_steps - st.steps_completed)
      ∧ (run_phase_loop apgm lossf chunk_size total_steps fuel
            st).steps_completed = total_steps := by
  intro fuel
  induction fuel with
  | zero =>
      intro st h1 h2
      have heq : st.steps_completed = total_steps := by omega
      simp [run_phase_loop, heq]
  | succ n ih =>
      intro st h1 h2
      by_cases hlt : st.steps_completed < total_steps
      · rw [run_phase_loop, if_pos hlt]
        have hmin1 : min chunk_size (total_steps - st.steps_completed)
            ≤ total_steps - st.steps_completed := Nat.min_le_right _ _
        have hmin2 : 1 ≤ min chunk_size (total_steps - st.steps_completed) :=
          by omega
        have hrec := ih (phase_chunk apgm lossf chunk_size total_steps st)
          (by rw [phase_chunk_steps_completed]; omega)
          (by rw [phase_chunk_steps_completed]; omega)
        obtain ⟨he, hs⟩ := hrec
        refine ⟨?_, hs⟩
        rw [he, phase_chunk_executed, phase_chunk_steps_completed]
        omega
      · rw [run_phase_loop, if_neg hlt]
        have heq : st.steps_completed = total_steps := by omega
        constructor
        · omega
        · omega

theorem run_phase_loop_checkpoints_le (apgm : Nat → Nat → α → α × α)
    (lossf : α → Int) (chunk_size total_steps : Nat) :
    ∀ (fuel : Nat) (st : PhaseState α),
      (∀ x ∈ st.checkpoints, x ≤ total_steps) →
      ∀ x ∈ (run_phase_loop apgm lossf chunk_size total_steps fuel
          st).checkpoints, x ≤ total_steps := by
  intro fuel
  induction fuel with
  | zero =>
      intro st hst
      simpa [run_phase_loop] using hst
  | succ n ih =>
      intro st hst
      by_cases hlt : st.steps_completed < total_steps
      · rw [run_phase_loop, if_pos hlt]
        refine ih (phase_chunk apgm lossf chunk_size total_steps st) ?_
        rw [phase_chunk_checkpoints]
        intro x hx
        rcases List.mem_append.mp hx with hx | hx
        · exact hst x hx
        · have hone : x = st.steps_completed
              + min chunk_size (total_steps - st.steps_completed) := by
            simpa using hx
          have hmin1 : min chunk_size (total_steps - st.steps_completed)
              ≤ total_steps - st.steps_completed := Nat.min_le_right _ _
          omega
      · rw [run_phase_loop, if_neg hlt]
        exact hst

theorem check_line_emit (rules : List ProgressRule) (line : String)
    (r : ProgressRule) (st : ScanState) (now : Nat)
    (hmatch : findFirstMatch rules line = some r)
    (hunseen : stage_key r.stage r.message ∉ st.reported_stages) :
    check_line_for_progress rules now line st
      = { reported_stages := stage_key r.stage r.message
            :: st.reported_stages
          last_progress_time := now
          events := st.events ++ [(r.stage, r.message)] } := by
  simp [check_line_for_progress, hmatch, hunseen]

theorem check_line_seen_noop (rules : List ProgressRule) (line : String)
    (r : ProgressRule) (st : ScanState) (now : Nat)
    (hmatch : findFirstMatch rules line = some r)
    (hseen : stage_key r.stage r.message ∈ st.reported_stages)
    (hwin : ¬ 60 < now - st.last_progress_time) :
    check_line_for_progress rules now line st = st := by
  simp [check_line_for_progress, hmatch, hseen, hwin]

theorem tail_file_length_le (contents : Option (List Nat))
    (max_bytes : Nat) :
    (tail_file contents max_bytes).length ≤ max_bytes := by
  cases contents with
  | none => simp [tail_file]
  | some data =>
      simp only [tail_file]
      split
      · simp only [List.length_drop]
        omega
      · omega

/-- C1: update_job_status performs a read-modify-write: it fetches the
existing record or synthesizes a pending one with empty progress and
created_at now; it overwrites status and updated_at; it appends a progress
event iff both stage and message are truthy; it overwrites each of output,
error, usage wholesale when given (no deep merge); and it leaves every
other key of the store untouched. -/
theorem update_job_status_read_modify_write {O U : Type}
    (store : Store O U) (now : Nat) (jid status : String)
    (stage message : Option String) (output : Option O)
    (error : Option String) (usage : Option U) :
    let store2 := update_job_status store now jid status stage message
      output error usage
    recField store2 jid (·.job_id)
      = some ((store jid).elim jid (·.job_id))
    ∧ recField store2 jid (·.status) = some status
    ∧ recField store2 jid (·.updated_at) = some (some now)
    ∧ recField store2 jid (·.created_at)
        = some ((store jid).elim now (·.created_at))
    ∧ recField store2 jid (·.progress)
        = some (((store jid).elim [] (·.progress))
            ++ progressDelta stage message now)
    ∧ recField store2 jid (·.output)
        = some (output.or ((store jid).bind (·.output)))
    ∧ recField store2 jid (·.error)
        = some (error.or ((store jid).bind (·.error)))
    ∧ recField store2 jid (·.usage)
        = some (usage.or ((store jid).bind (·.usage)))
    ∧ ∀ k, k ≠ jid → store2 k = store k := by
  intro store2
  have hself := update_job_status_apply_self store now jid status stage
    message output error usage
  have hfields := updatedRecord_fields (store jid) now jid status stage
    message output error usage
  obtain ⟨h1, h2, h3, h4, h5, h6, h7, h8⟩ := hfields
  refine ⟨?_, ?_, ?_, ?_, ?_, ?_, ?_, ?_, ?_⟩
  · simp [recField, store2, hself, h1]
  · simp [recField, store2, hself, h2]
  · simp [recField, store2, hself, h3]
  · simp [recField, store2, hself, h4]
  · simp [recField, store2, hself, h5]
  · simp [recField, store2, hself, h6]
  · simp [recField, store2, hself, h7]
  · simp [recField, store2, hself, h8]
  · exact fun k hk => update_job_status_apply_other store now jid status
      stage message output error usage k hk

/-- Closed instance of the C1 theorem: on an empty store, a first update
writes status running under its key and leaves another key absent. -/
theorem update_job_status_read_modify_write_witness :
    recField (update_job_status (emptyStore Nat Nat) 5 "j" "running"
        (some "init") (some "m") none none none) "j" (fun r => r.status)
      = some "running"
    ∧ update_job_status (emptyStore Nat Nat) 5 "j" "running" (some "init")
        (some "m") none none none "k" = emptyStore Nat Nat "k" := by
  have h := update_job_status_read_modify_write (emptyStore Nat Nat) 5 "j"
    "running" (some "init") (some "m") none none none
  exact ⟨h.2.1, h.2.2.2.2.2.2.2.2 "k" (by decide)⟩

theorem update_job_status_progressLen_le (store : Store O U) (now : Nat)
    (jid status : String) (stage message : Option String) (output : Option O)
    (error : Option String) (usage : Option U) :
    progressLen store jid
      ≤ progressLen (update_job_status store now jid status stage message
          output error usage) jid := by
  have h := update_job_status_apply_self store now jid status stage message
    output error usage
  obtain ⟨-, -, -, -, hf, -, -, -⟩ := updatedRecord_fields (store jid) now
    jid status stage message output error usage
  cases hs : store jid with
  | none => simp [progressLen, hs]
  | some e =>
      rw [hs] at h hf
      simp [progressLen, hs, h, hf]

/-- C5: a first update on a fresh job with truthy stage and message leaves
exactly one progress entry carrying that stage and message; and across any
sequence of further update_job_status calls on the same job the progress
length never decreases. -/
theorem progress_singleton_then_monotone :
    (∀ (O U : Type) (store : Store O U) (jid : String) (now : Nat),
       store jid = none →
       recField (update_job_status store now jid "running" (some "init")
           (some "m") none none none) jid (fun r => r.progress)
         = some [⟨"init", "m", now⟩])
    ∧ ∀ (O U : Type) (store : Store O U) (jid : String)
        (cmds : List (UpdateCmd O U)),
        progressLen store jid ≤ progressLen (apply_updates jid store cmds)
          jid := by
  constructor
  · intro O U store jid now hnone
    have h := update_job_status_apply_self store now jid "running"
      (some "init") (some "m") (none : Option O) none (none : Option U)
    obtain ⟨-, -, -, -, hf, -, -, -⟩ := updatedRecord_fields (store jid) now
      jid "running" (some "init") (some "m") (none : Option O) none
      (none : Option U)
    rw [hnone] at h hf
    simp [recField, h, hf, progressDelta]
  · intro O U store jid cmds
    induction cmds generalizing store with
    | nil => simp [apply_updates]
    | cons c cs ih =>
        have hstep := update_job_status_progressLen_le store c.now jid
          c.status c.stage c.message c.output c.error c.usage
        calc progressLen store jid
            ≤ progressLen (update_job_status store c.now jid c.status c.stage
                c.message c.output c.error c.usage) jid := hstep
          _ ≤ _ := by
              simpa [apply_updates] using
                ih (update_job_status store c.now jid c.status c.stage
                  c.message c.output c.error c.usage)

/-- Closed instance of the C5 theorem at a concrete fresh store and an
empty continuation sequence. -/
theorem progress_singleton_then_monotone_witness :
    recField (update_job_status (emptyStore Nat Nat) 7 "job" "running"
        (some "init") (some "m") none none none) "job"
        (fun r => r.progress)
      = some [⟨"init", "m", 7⟩]
    ∧ progressLen (emptyStore Nat Nat) "job"
        ≤ progressLen (apply_updates "job" (emptyStore Nat Nat) []) "job" :=
  ⟨progress_singleton_then_monotone.1 Nat Nat (emptyStore Nat Nat) "job" 7
      rfl,
   progress_singleton_then_monotone.2 Nat Nat (emptyStore Nat Nat) "job" []⟩

/-- C9: terminal states are not sticky.  Every record whose status is
completed or failed is set back to running by a later progress update,
whether issued through send_progress or directly through
update_job_status with status running. -/
theorem terminal_status_not_sticky {O U : Type} (store : Store O U)
    (now : Nat) (jid : String) (e : JobRecord O U)
    (hjid : jid ≠ "") (he : store jid = some e)
    (hterm : e.status = "completed" ∨ e.status = "failed") :
    (∀ stage message : String,
       recField (send_progress store now (some jid) stage message) jid
         (fun r => r.status) = some "running")
    ∧ ∀ (stage message : Option String) (output : Option O)
        (error : Option String) (usage : Option U),
        recField (update_job_status store now jid "running" stage message
          output error usage) jid (fun r => r.status) = some "running" := by
  have hgen : ∀ (stage message : Option String) (output : Option O)
      (error : Option String) (usage : Option U),
      recField (update_job_status store now jid "running" stage message
        output error usage) jid (fun r => r.status) = some "running" := by
    intro stage message output error usage
    have h := update_job_status_apply_self store now jid "running" stage
      message output error usage
    obtain ⟨-, hs, -⟩ := updatedRecord_fields (store jid) now jid "running"
      stage message output error usage
    simp [recField, h, hs]
  refine ⟨?_, hgen⟩
  intro stage message
  have := hgen (some stage) (some message) none none none
  simpa [send_progress, hjid] using this

/-- Closed instance of the C9 theorem: a completed job goes back to
running after a send_progress call. -/
theorem terminal_status_not_sticky_witness :
    recField (send_progress completedStore 9 (some "j") "init" "m") "j"
      (fun r => r.status) = some "running" :=
  (terminal_status_not_sticky completedStore 9 "j"
      { job_id := "j", status := "completed", progress := []
        created_at := 0, updated_at := some 1
        output := some 42, error := none, usage := none }
      (by decide) rfl (Or.inl rfl)).1 "init" "m"

/-- C10: send_usage_update on an existing record overwrites only the usage
and updated_at fields, leaving status, progress, output, error and
created_at unchanged; on an absent record it synthesizes a running record
with empty progress; and every other key of the store is untouched. -/
theorem send_usage_update_frame {O : Type} (store : Store O ResourceUsage)
    (now : Nat) (jid gpu_type : String) (execution_seconds : Nat)
    (hjid : jid ≠ "") :
    (∀ e, store jid = some e →
       send_usage_update store now (some jid) gpu_type execution_seconds jid
         = some { e with
             usage := some ⟨gpu_type, execution_seconds, now⟩
             updated_at := some now })
    ∧ (store jid = none →
       send_usage_update store now (some jid) gpu_type execution_seconds jid
         = some { job_id := jid, status := "running", progress := []
                  created_at := now, updated_at := some now
                  output := none, error := none
                  usage := some ⟨gpu_type, execution_seconds, now⟩ })
    ∧ ∀ k, k ≠ jid →
        send_usage_update store now (some jid) gpu_type execution_seconds k
          = store k := by
  refine ⟨?_, ?_, ?_⟩
  · intro e he
    simp [send_usage_update, get_job_status, hjid, he]
  · intro hnone
    simp [send_usage_update, get_job_status, hjid, hnone]
  · intro k hk
    simp [send_usage_update, get_job_status, hjid, hk]

/-- Closed instance of the C10 theorem on the concrete one-job ledger:
only usage and updated_at change, and a foreign key stays absent. -/
theorem send_usage_update_frame_witness :
    send_usage_update completedStore 9 (some "j") "A100" 30 "j"
      = some { job_id := "j", status := "completed", progress := []
               created_at := 0, updated_at := some 9
               output := some 42, error := none
               usage := some ⟨"A100", 30, 9⟩ }
    ∧ send_usage_update completedStore 9 (some "j") "A100" 30 "k"
      = completedStore "k" := by
  have h := send_usage_update_frame completedStore 9 "j" "A100" 30
    (by decide)
  exact ⟨h.1 _ rfl, h.2.2 "k" (by decide)⟩

/-- C2: for any serializer pair that round-trips (as json.dumps followed by
json.loads does on well-formed, JSON-serializable payloads), save_state
followed by load_state returns the saved payload, and load_state after
clear_state returns absent. -/
theorem save_state_load_state_roundtrip {V : Type} (enc : V → String)
    (dec : String → V) (hround : ∀ v, dec (enc v) = v)
    (pm : PreemptionManager) (s : V) :
    load_state dec (save_state enc pm s) = some s
    ∧ ∀ pm2 : PreemptionManager, load_state dec (clear_state pm2) = none := by
  constructor
  · simp [load_state, save_state, hround]
  · intro pm2
    simp [load_state, clear_state]

/-- Closed instance of the C2 theorem with a concrete round-tripping
serializer for Bool payloads. -/
theorem save_state_load_state_roundtrip_witness :
    load_state (fun s => s == "1")
        (save_state (fun b : Bool => if b then "1" else "0")
          ⟨none, false⟩ true)
      = some true
    ∧ load_state (fun s => s == "1") (clear_state ⟨some "1", false⟩)
      = none := by
  have h := save_state_load_state_roundtrip
    (fun b : Bool => if b then "1" else "0") (fun s => s == "1")
    (by decide) ⟨none, false⟩ true
  exact ⟨h.1, h.2 ⟨some "1", false⟩⟩

/-- C3: a chunked phase with chunk_size 10 and a 25-step target starting
from zero performs exactly three checkpoint writes with steps_completed
values 10, 20, 25; and in every chunked phase each chunk is clipped to the
remaining steps, so no recorded checkpoint exceeds the phase target. -/
theorem chunked_phase_checkpoint_schedule :
    (run_phase (fun _ _ _ => ((), ())) (fun _ => (0 : Int)) 10 0 25
        () ()).checkpoints = [10, 20, 25]
    ∧ ∀ (α : Type) (apgm : Nat → Nat → α → α × α) (lossf : α → Int)
        (chunk_size start_steps total_steps : Nat)
        (initial_sequence best_sequence : α),
        ∀ x ∈ (run_phase apgm lossf chunk_size start_steps total_steps
            initial_sequence best_sequence).checkpoints,
          x ≤ total_steps := by
  constructor
  · decide
  · intro α apgm lossf chunk_size start_steps total_steps init best
    exact run_phase_loop_checkpoints_le apgm lossf chunk_size total_steps
      (total_steps - start_steps)
      { steps_completed := start_steps, current := init, best := best
        best_loss := none, checkpoints := [], executed := 0 }
      (by simp)

/-- Closed instance of the C3 theorem: the value 10 is a recorded
checkpoint of the concrete 25-step run and is within the target. -/
theorem chunked_phase_checkpoint_schedule_witness :
    10 ∈ (run_phase (fun _ _ _ => ((), ())) (fun _ => (0 : Int)) 10 0 25
        () ()).checkpoints
    ∧ (10 : Nat) ≤ 25 :=
  ⟨by decide,
   chunked_phase_checkpoint_schedule.2 Unit (fun _ _ _ => ((), ()))
     (fun _ => (0 : Int)) 10 0 25 () () 10 (by decide)⟩

/-- C4: a phase resumed with start_steps already completed executes
exactly target minus start_steps further optimization steps; in
particular resuming the coarse phase from a checkpoint with phase coarse
and steps_completed 12 against a 25-step target executes exactly 13
further steps, not 25. -/
theorem resumed_phase_executes_remaining :
    (∀ (α : Type) (apgm : Nat → Nat → α → α × α) (lossf : α → Int)
        (chunk_size start_steps total_steps : Nat)
        (initial_sequence best_sequence : α),
        0 < chunk_size → start_steps ≤ total_steps →
        (run_phase apgm lossf chunk_size start_steps total_steps
            initial_sequence best_sequence).executed
          = total_steps - start_steps)
    ∧ (run_phase (fun _ _ _ => ((), ())) (fun _ => (0 : Int)) 10
          (coarse_start_steps (some "coarse") 12) 25 () ()).executed = 13
    ∧ (run_phase (fun _ _ _ => ((), ())) (fun _ => (0 : Int)) 10
          (coarse_start_steps (some "coarse") 12) 25 () ()).executed
        ≠ 25 := by
  refine ⟨?_, by decide, by decide⟩
  intro α apgm lossf chunk_size start_steps total_steps init best hc hss
  have h := run_phase_loop_exec apgm lossf chunk_size total_steps hc
    (total_steps - start_steps)
    { steps_completed := start_steps, current := init, best := best
      best_loss := none, checkpoints := [], executed := 0 }
    (by simpa using hss) (by simp)
  simpa [run_phase] using h.1

/-- Closed instance of the C4 theorem at the resumed coarse scenario. -/
theorem resumed_phase_executes_remaining_witness :
    0 < 10 ∧ 12 ≤ 25
    ∧ (run_phase (fun _ _ _ => ((), ())) (fun _ => (0 : Int)) 10 12 25
        () ()).executed = 25 - 12 :=
  ⟨by decide, by decide,
   resumed_phase_executes_remaining.1 Unit (fun _ _ _ => ((), ()))
     (fun _ => (0 : Int)) 10 12 25 () () (by decide) (by decide)⟩

/-- C6: five identical log lines matched by a rule emit exactly one
progress event for that (stage, message) pair: the first unseen match
emits the event and marks the key seen, and a line whose matched key is
already seen adds no further event for that pair within the attempt. -/
theorem progress_rule_dedup (rules : List ProgressRule) (line : String)
    (r : ProgressRule) (hmatch : findFirstMatch rules line = some r) :
    (∀ (st : ScanState) (now : Nat),
       stage_key r.stage r.message ∉ st.reported_stages →
       (process_lines rules
           [(now, line), (now, line), (now, line), (now, line), (now, line)]
           st).events
         = st.events ++ [(r.stage, r.message)])
    ∧ ∀ (st : ScanState) (now : Nat),
        stage_key r.stage r.message ∈ st.reported_stages →
        (r.stage, r.message) ≠ ("processing", "Pipeline running...") →
        (check_line_for_progress rules now line st).events.count
            (r.stage, r.message)
          = st.events.count (r.stage, r.message) := by
  constructor
  · intro st now hunseen
    have h1 := check_line_emit rules line r st now hmatch hunseen
    have hfix : check_line_for_progress rules now line
        ⟨stage_key r.stage r.message :: st.reported_stages, now,
          st.events ++ [(r.stage, r.message)]⟩
        = ⟨stage_key r.stage r.message :: st.reported_stages, now,
            st.events ++ [(r.stage, r.message)]⟩ :=
      check_line_seen_noop rules line r _ now hmatch (by simp) (by simp)
    simp only [process_lines, List.foldl]
    rw [h1, hfix, hfix, hfix, hfix]
  · intro st now hseen hne
    simp only [check_line_for_progress, hmatch]
    rw [if_pos hseen]
    by_cases hwin : 60 < now - st.last_progress_time
    · rw [if_pos hwin]
      simp [List.count_append, hne]
    · rw [if_neg hwin]

/-- Closed instance of the C6 theorem: one rule, five identical lines at
one instant, one emitted event. -/
theorem progress_rule_dedup_witness :
    (process_lines
        [⟨fun _ => true, "design", "Running diffusion backbone generation"⟩]
        [(0, "x"), (0, "x"), (0, "x"), (0, "x"), (0, "x")]
        ⟨[], 0, []⟩).events
      = [("design", "Running diffusion backbone generation")] := by
  have h := (progress_rule_dedup
      [⟨fun _ => true, "design", "Running diffusion backbone generation"⟩]
      "x"
      ⟨fun _ => true, "design", "Running diffusion backbone generation"⟩
      rfl).1 ⟨[], 0, []⟩ 0 (by simp)
  simpa using h

/-- C7 counterexample: heartbeats are produced only inside
check_line_for_progress, which runs once per subprocess output line.
Over a window from time 0 to time 200 with no output lines the scanner
emits no event at all, although more than one 60-second window elapsed;
and a single line arriving at time 200 yields exactly one heartbeat even
though more than three windows elapsed — not one per window. -/
theorem heartbeat_silent_window_counterexample :
    60 < 200 - (0 : Nat)
    ∧ (process_lines ([] : List ProgressRule) ([] : List (Nat × String))
        ⟨[], 0, []⟩).events = []
    ∧ (process_lines ([] : List ProgressRule) [(200, "late line")]
        ⟨[], 0, []⟩).events = [("processing", "Pipeline running...")] := by
  refine ⟨by decide, rfl, by decide⟩

/-- C7 amended: heartbeats fire only when a line is processed.  With no
output lines the scanner state is unchanged and no heartbeat is emitted;
a processed line that matches no rule emits exactly one heartbeat iff
more than 60 seconds have passed since last_progress_time, resetting the
timer, and emits nothing otherwise. -/
theorem heartbeat_once_per_processed_line (rules : List ProgressRule)
    (line : String) (hnm : findFirstMatch rules line = none) :
    (∀ st : ScanState, process_lines rules [] st = st)
    ∧ (∀ (st : ScanState) (now : Nat),
        60 < now - st.last_progress_time →
        (check_line_for_progress rules now line st).events
            = st.events ++ [("processing", "Pipeline running...")]
        ∧ (check_line_for_progress rules now line st).last_progress_time
            = now)
    ∧ ∀ (st : ScanState) (now : Nat),
        ¬ 60 < now - st.last_progress_time →
        check_line_for_progress rules now line st = st := by
  refine ⟨fun st => rfl, ?_, ?_⟩
  · intro st now hwin
    constructor <;> simp [check_line_for_progress, hnm, hwin]
  · intro st now hwin
    simp [check_line_for_progress, hnm, hwin]

/-- Closed instance of the C7 amended theorem: a no-match line at time
100 against an idle-since-0 scanner emits exactly one heartbeat. -/
theorem heartbeat_once_per_processed_line_witness :
    60 < 100 - (0 : Nat)
    ∧ (check_line_for_progress [] 100 "x" ⟨[], 0, []⟩).events
        = [("processing", "Pipeline running...")] := by
  have h := (heartbeat_once_per_processed_line [] "x" rfl).2.1
    ⟨[], 0, []⟩ 100 (by decide)
  exact ⟨by decide, by simpa using h.1⟩

/-- C8: on nonzero subprocess exit the runner fails with the log tail
bounded by 8000 bytes; on zero exit it returns normally; and the
background poller is stopped on every exit path. -/
theorem subprocess_exit_handling (return_code : Int)
    (log_contents : Option (List Nat)) :
    (return_code ≠ 0 →
      (run_boltzgen_exit return_code log_contents).result
          = Except.error (tail_file log_contents 8000)
      ∧ (tail_file log_contents 8000).length ≤ 8000)
    ∧ (return_code = 0 →
      (run_boltzgen_exit return_code log_contents).result = Except.ok ())
    ∧ (run_boltzgen_exit return_code log_contents).poller_stopped = true := by
  refine ⟨?_, ?_, ?_⟩
  · intro h
    exact ⟨by simp [run_boltzgen_exit, h], tail_file_length_le _ _⟩
  · intro h
    simp [run_boltzgen_exit, h]
  · by_cases h : return_code = 0 <;> simp [run_boltzgen_exit, h]

/-- Closed instance of the C8 theorem: exit code 1 with a short log fails
carrying the whole log as tail, with the poller stopped. -/
theorem subprocess_exit_handling_witness :
    (1 : Int) ≠ 0
    ∧ (run_boltzgen_exit 1 (some [1, 2, 3])).result
        = Except.error [1, 2, 3]
    ∧ (run_boltzgen_exit 1 (some [1, 2, 3])).poller_stopped = true := by
  have h := subprocess_exit_handling 1 (some [1, 2, 3])
  refine ⟨by decide, ?_, h.2.2⟩
  have h1 := (h.1 (by decide)).1
  simpa [tail_file] using h1

end VibeProteins
